import Mathlib

/-!
Verification of the admixture statistics module (`allel/stats/admixture.py`)
and the genotype call predicates (`allel/gt.py`) of the scikit-allel
repository, via a shallow embedding into Lean.

Modelling conventions:
* Floating point values are modelled as `Option ℚ`: `some x` is an ordinary
  (finite) float, `none` is NaN.  All degenerate divisions arising in this
  module are of the form `0 / 0` (allele numbers and heterozygosities vanish
  together on the rows where the denominators vanish, given the documented
  invariant that allele counts are non-negative), so NaN is the only
  non-finite value that arises, and `Option` bind models IEEE propagation.
* A 2-D numpy array is a `List (List ℤ)` of rows; `ncols` returns the common
  row length when the nested list is rectangular and non-empty (i.e. when
  `np.asarray` would produce a 2-dimensional array), and `none` otherwise.
* Python exceptions are modelled by `Except AllelError`; an `assert`
  statement raises `AllelError.assertionError`.
* Helpers that live outside the two source files under verification
  (`asarray_ndim`, `check_dim0_aligned`, `AlleleCountsArray`,
  `moving_statistic`) are modelled from the spec, and are marked as such in
  their doc comments.
-/

/-- Error taxonomy.  `argumentError` is `allel.errors.ArgumentError`;
`assertionError` is the Python built-in raised by an `assert` statement;
`dimensionMismatchError` is the dimension-mismatch error of the spec. -/
inductive AllelError where
  | argumentError : String → AllelError
  | assertionError : String → AllelError
  | dimensionMismatchError : String → AllelError
  deriving DecidableEq, Repr

/-- True exactly on `argumentError`. -/
def AllelError.isArgumentError : AllelError → Bool
  | .argumentError _ => true
  | _ => false

/-- Float values: `some x` is a finite float, `none` is NaN. -/
abbrev F := Option ℚ

/-- Float addition; NaN propagates. -/
def fadd : F → F → F
  | some x, some y => some (x + y)
  | _, _ => none

/-- Float subtraction; NaN propagates. -/
def fsub : F → F → F
  | some x, some y => some (x - y)
  | _, _ => none

/-- Float multiplication; NaN propagates.  (No infinities arise in this
module, so the `0 * inf` corner of IEEE multiplication is not needed.) -/
def fmul : F → F → F
  | some x, some y => some (x * y)
  | _, _ => none

/-- Float division; NaN propagates, and division by zero is NaN.  In this
module every zero denominator comes with a zero numerator (allele counts are
non-negative), so `0 / 0 = NaN` is the only non-finite case exercised. -/
def fdiv : F → F → F
  | some x, some y => if y = 0 then none else some (x / y)
  | _, _ => none

/-- Float negation; NaN propagates. -/
def fneg : F → F
  | some x => some (-x)
  | none => none

/-- Sum of a list of floats (`np.sum`); NaN propagates. -/
def fsum (xs : List F) : F := xs.foldr fadd (some 0)

/-- Arithmetic mean of a list of floats (`np.mean`): sum divided by length;
the mean of an empty list is `0 / 0 = NaN`. -/
def fmean (xs : List F) : F := fdiv (fsum xs) (some (xs.length : ℚ))

/-- NaN-skipping sum (`np.nansum`): non-finite entries are ignored. -/
def nansum (xs : List F) : ℚ := (xs.filterMap id).sum

/-- A 2-D integer array: a list of rows. -/
abbrev Arr := List (List ℤ)

/-- Shape of the second axis: `some c` when the nested list is a non-empty
rectangular table whose rows all have length `c` (so `np.asarray` yields a
2-dimensional array of `c` columns), otherwise `none` (ragged or empty input
does not produce a 2-D array). -/
def ncols : Arr → Option Nat
  | [] => none
  | r :: rs => if rs.all (fun row => row.length == r.length) then some r.length else none

/-- Modelled from the spec: the argument-validation helper `asarray_ndim`
(in `allel.util`, not under src) converts the input to an array of the
requested dimensionality and fails with an argument error otherwise.  For
`ndim=2` this succeeds exactly when `ncols` is defined. -/
def asarray_ndim2 (a : Arr) : Except AllelError Arr :=
  match ncols a with
  | none => .error (.argumentError "expected 2 dimensions")
  | some _ => .ok a

/-- Modelled from the spec: construction of an `AlleleCountsArray`
(`allel.model`, not under src) validates that the input is a 2-D integer
array; it does not constrain the number of columns (the callers in
`admixture.py` assert biallelic shape themselves afterwards). -/
def alleleCountsArray (a : Arr) : Except AllelError Arr :=
  match ncols a with
  | none => .error (.argumentError "invalid allele counts array")
  | some _ => .ok a

/-- The statement `assert` with message `only biallelic variants supported`
guarding every estimator: raises `AssertionError` when the column count is not 2. -/
def assertBiallelic (a : Arr) : Except AllelError Unit :=
  if ncols a == some 2 then .ok ()
  else .error (.assertionError "only biallelic variants supported")

/-- Modelled from the spec: `check_dim0_aligned` (in `allel.util`, not under
src) asserts that all arrays share the same leading-dimension length,
failing with a dimension-mismatch error otherwise. -/
def check_dim0_aligned (as : List Arr) : Except AllelError Unit :=
  if as.all (fun a => a.length == (as.headD []).length) then .ok ()
  else .error (.dimensionMismatchError "arrays do not have matching length for first dimension")

/-- Row sum: `ac.sum(axis=1)` at one row, the allele number `an`. -/
def alleleNumber (row : List ℤ) : ℤ := row.sum

/-- One row of the `h_hat` estimator: `x = (ac[:, 0] * ac[:, 1]) / (an * (an - 1))`
with `an = ac.sum(axis=1)`.  Integer products are exact; the final true
division is float division (NaN when `an * (an - 1) = 0`). -/
def h_hat_row (row : List ℤ) : F :=
  fdiv (some ((row.getD 0 0 * row.getD 1 0 : ℤ) : ℚ))
       (some ((alleleNumber row * (alleleNumber row - 1) : ℤ) : ℚ))

/-- `h_hat(ac)`: validate the input (`asarray_ndim(ac, 2)` then
`assert ac.shape[1] == 2`), then return the per-row estimator values. -/
def h_hat (ac : Arr) : Except AllelError (List F) := do
  let ac ← asarray_ndim2 ac
  let _ ← assertBiallelic ac
  return ac.map h_hat_row

/-- Modelled from the spec: `AlleleCountsArray.to_frequencies` converts
counts to fractions by row; column 1 is the alternate-allele frequency
`ac[:, 1] / an` (NaN when the allele number is zero). -/
def freqAlt (row : List ℤ) : F :=
  fdiv (some ((row.getD 1 0 : ℤ) : ℚ)) (some ((alleleNumber row : ℤ) : ℚ))

/-- One row of `patterson_f2`:
`x = ((a - b) ** 2) - (ha / sa) - (hb / sb)`. -/
def f2_row (ra rb : List ℤ) : F :=
  let a := freqAlt ra
  let b := freqAlt rb
  fsub (fsub (fmul (fsub a b) (fsub a b))
             (fdiv (h_hat_row ra) (some ((alleleNumber ra : ℤ) : ℚ))))
       (fdiv (h_hat_row rb) (some ((alleleNumber rb : ℤ) : ℚ)))

/-- `patterson_f2(aca, acb)`: validate both inputs (`AlleleCountsArray`
construction, the biallelic assert, `check_dim0_aligned`), then return the
per-row estimator. -/
def patterson_f2 (aca acb : Arr) : Except AllelError (List F) := do
  let aca ← alleleCountsArray aca
  let _ ← assertBiallelic aca
  let acb ← alleleCountsArray acb
  let _ ← assertBiallelic acb
  let _ ← check_dim0_aligned [aca, acb]
  return List.zipWith f2_row aca acb

/-- zipWith over three lists (truncating at the shortest). -/
def zipWith3L (f : α → β → γ → δ) : List α → List β → List γ → List δ
  | a :: as, b :: bs, c :: cs => f a b c :: zipWith3L f as bs cs
  | _, _, _ => []

/-- zipWith over four lists (truncating at the shortest). -/
def zipWith4L (f : α → β → γ → δ → ε) : List α → List β → List γ → List δ → List ε
  | a :: as, b :: bs, c :: cs, d :: ds => f a b c d :: zipWith4L f as bs cs ds
  | _, _, _, _ => []

/-- One row of the `T` output of `patterson_f3`:
`T = ((c - a) * (c - b)) - (hc / sc)`. -/
def f3_rowT (rc ra rb : List ℤ) : F :=
  let a := freqAlt ra
  let b := freqAlt rb
  let c := freqAlt rc
  fsub (fmul (fsub c a) (fsub c b))
       (fdiv (h_hat_row rc) (some ((alleleNumber rc : ℤ) : ℚ)))

/-- One row of the `B` output of `patterson_f3`: `B = 2 * hc`. -/
def f3_rowB (rc : List ℤ) : F := fmul (some 2) (h_hat_row rc)

/-- `patterson_f3(acc, aca, acb)`: validate the inputs in source order
(aca, acb, acc, then alignment) and return the per-variant arrays `T`, `B`. -/
def patterson_f3 (acc aca acb : Arr) : Except AllelError (List F × List F) := do
  let aca ← alleleCountsArray aca
  let _ ← assertBiallelic aca
  let acb ← alleleCountsArray acb
  let _ ← assertBiallelic acb
  let acc ← alleleCountsArray acc
  let _ ← assertBiallelic acc
  let _ ← check_dim0_aligned [aca, acb, acc]
  return (zipWith3L f3_rowT acc aca acb, acc.map f3_rowB)

/-- One row of the `num` output of `patterson_d`: `num = (a - b) * (c - d)`. -/
def d_num_row (ra rb rc rd : List ℤ) : F :=
  fmul (fsub (freqAlt ra) (freqAlt rb)) (fsub (freqAlt rc) (freqAlt rd))

/-- One row of the `den` output of `patterson_d`:
`den = (a + b - (2 * a * b)) * (c + d - (2 * c * d))`. -/
def d_den_row (ra rb rc rd : List ℤ) : F :=
  let a := freqAlt ra
  let b := freqAlt rb
  let c := freqAlt rc
  let d := freqAlt rd
  fmul (fsub (fadd a b) (fmul (some 2) (fmul a b)))
       (fsub (fadd c d) (fmul (some 2) (fmul c d)))

/-- `patterson_d(aca, acb, acc, acd)`: validate the four inputs in source
order and return the per-variant arrays `num`, `den`. -/
def patterson_d (aca acb acc acd : Arr) : Except AllelError (List F × List F) := do
  let aca ← alleleCountsArray aca
  let _ ← assertBiallelic aca
  let acb ← alleleCountsArray acb
  let _ ← assertBiallelic acb
  let acc ← alleleCountsArray acc
  let _ ← assertBiallelic acc
  let acd ← alleleCountsArray acd
  let _ ← assertBiallelic acd
  let _ ← check_dim0_aligned [aca, acb, acc, acd]
  return (zipWith4L d_num_row aca acb acc acd, zipWith4L d_den_row aca acb acc acd)

/-- The first `k` non-overlapping contiguous blocks of length `blen` of a
list. -/
def blocksAux (blen : Nat) : Nat → List α → List (List α)
  | 0, _ => []
  | k + 1, xs => xs.take blen :: blocksAux blen k (xs.drop blen)

/-- Modelled from the spec: `moving_statistic(values, statistic=np.nansum,
size=blen)` (in `allel.stats.window`, not under src) aggregates each
non-overlapping contiguous block of `blen` values with a NaN-aware sum,
dropping a trailing partial block: `n / blen` blocks in all. -/
def moving_nansum (xs : List F) (blen : Nat) : List ℚ :=
  (blocksAux blen (xs.length / blen) xs).map nansum

/-- A numpy masked array: the data and the boolean mask (`True` = excluded). -/
structure MaskedArr where
  data : List ℚ
  mask : List Bool

/-- A pair of numpy masked arrays, for the tuple branch of `jackknife`. -/
structure MaskedArr2 where
  data1 : List ℚ
  mask1 : List Bool
  data2 : List ℚ
  mask2 : List Bool

/-- The entries of a masked array visible to computations: data entries whose
mask is `False`. -/
def unmasked : List ℚ → List Bool → List ℚ
  | [], _ => []
  | _ :: _, [] => []
  | x :: xs, b :: bs => if b then unmasked xs bs else x :: unmasked xs bs

/-- Iteration `i` of the single-series `jackknife` loop: set `mask[i] = True`,
apply the statistic to the masked array, set `mask[i] = False`, append the
replicate. -/
def jackknifeStep (stat : MaskedArr → F) (st : MaskedArr × List F) (i : Nat) :
    MaskedArr × List F :=
  let ma1 : MaskedArr := ⟨st.1.data, st.1.mask.set i true⟩
  let x := stat ma1
  let ma2 : MaskedArr := ⟨ma1.data, ma1.mask.set i false⟩
  (ma2, st.2 ++ [x])

/-- The first `k` iterations of the single-series `jackknife` loop, starting
from the all-`False` mask the source installs (`np.zeros(values.shape)`). -/
def jackknifeLoop (stat : MaskedArr → F) (values : List ℚ) (k : Nat) :
    MaskedArr × List F :=
  (List.range k).foldl (jackknifeStep stat) (⟨values, List.replicate values.length false⟩, [])

/-- The bias-corrected jackknife variance
`sv = ((n - 1) / n) * np.sum((vj - m) ** 2)` with `m = vj.mean()`; the source
returns `se = np.sqrt(sv)`. -/
def svOf (vj : List F) (n : Nat) : F :=
  let m := fmean vj
  fmul (some (((n : ℚ) - 1) / (n : ℚ)))
       (fsum (vj.map (fun v => fmul (fsub v m) (fsub v m))))

/-- `jackknife(values, statistic)` for a single input series: run the
delete-one loop over all `n = len(values)` indices and return
`(m, sv, vj)` where `m = vj.mean()` and `sv` is the bias-corrected variance.
The source returns `(m, se, vj)` with `se = np.sqrt(sv)`; the square root of
a rational is irrational in general, so the embedding returns the radicand
`sv`, which determines `se`. -/
def jackknife (stat : MaskedArr → F) (values : List ℚ) : F × F × List F :=
  let n := values.length
  let vj := (jackknifeLoop stat values n).2
  (fmean vj, svOf vj n, vj)

/-- Iteration `i` of the tuple-branch `jackknife` loop: set index `i` of both
masks, apply the statistic, clear index `i` of both masks, append the
replicate. -/
def jackknife2Step (stat : MaskedArr2 → F) (st : MaskedArr2 × List F) (i : Nat) :
    MaskedArr2 × List F :=
  let ma1 : MaskedArr2 := ⟨st.1.data1, st.1.mask1.set i true, st.1.data2, st.1.mask2.set i true⟩
  let x := stat ma1
  let ma2 : MaskedArr2 := ⟨ma1.data1, ma1.mask1.set i false, ma1.data2, ma1.mask2.set i false⟩
  (ma2, st.2 ++ [x])

/-- The first `k` iterations of the tuple-branch `jackknife` loop, starting
from all-`False` masks. -/
def jackknife2Loop (stat : MaskedArr2 → F) (v1 v2 : List ℚ) (k : Nat) :
    MaskedArr2 × List F :=
  (List.range k).foldl (jackknife2Step stat)
    (⟨v1, List.replicate v1.length false, v2, List.replicate v2.length false⟩, [])

/-- `jackknife((v1, v2), statistic)` for a tuple of two input series:
`n = len(values[0])`; returns `(m, sv, vj)` as in the single-series case. -/
def jackknife2 (stat : MaskedArr2 → F) (v1 v2 : List ℚ) : F × F × List F :=
  let n := v1.length
  let vj := (jackknife2Loop stat v1 v2 n).2
  (fmean vj, svOf vj n, vj)

/-- The statistic `np.mean` on a masked array: the mean of the unmasked
entries (NaN when everything is masked). -/
def maskedMean (ma : MaskedArr) : F :=
  fdiv (some (unmasked ma.data ma.mask).sum)
       (some ((unmasked ma.data ma.mask).length : ℚ))

/-- The statistic `lambda n, d: np.sum(n) / np.sum(d)` used by
`blockwise_patterson_d`: the masked sums of the two series, divided. -/
def sumRatioStat (ma : MaskedArr2) : F :=
  fdiv (some (unmasked ma.data1 ma.mask1).sum)
       (some (unmasked ma.data2 ma.mask2).sum)

/-- `blockwise_patterson_d(aca, acb, acc, acd, blen)`: per-variant `num`,
`den` from `patterson_d`; NaN-aware block sums of each; `vb` their elementwise
ratio; the tuple jackknife over the block sums.  The source returns
`(m, se, z, vb, vj)` with `se = np.sqrt(sv)` and `z = m / se`; the embedding
returns `(m, sv, vb, vj)` (square roots of rationals are irrational in
general; `se` and `z` are determined by `m` and `sv`). -/
def blockwise_patterson_d (aca acb acc acd : Arr) (blen : Nat) :
    Except AllelError (F × F × List F × List F) := do
  let nd ← patterson_d aca acb acc acd
  let num_bsum := moving_nansum nd.1 blen
  let den_bsum := moving_nansum nd.2 blen
  let vb := List.zipWith (fun x y => fdiv (some x) (some y)) num_bsum den_bsum
  let r := jackknife2 sumRatioStat num_bsum den_bsum
  return (r.1, r.2.1, vb, r.2.2)

/-- A genotype array input (`allel/gt.py`): a nested list that `np.asarray`
turns into a 2-D array (haploid calls) or a 3-D array (one row of allele
indices per call). -/
inductive GT where
  | g2 : List (List ℤ) → GT
  | g3 : List (List (List ℤ)) → GT

/-- The result of `_check_genotype_array`: either a 2-D array treated as
haploid (including a 3-D input whose ploidy dimension was 1 and was dropped),
or a 3-D array with its ploidy. -/
inductive GTNorm where
  | hap : List (List ℤ) → GTNorm
  | poly : Nat → List (List (List ℤ)) → GTNorm

/-- Shape of a 3-D nested list: `some (n_samples, ploidy)` when the outer
list is non-empty and the inner lists are rectangular (so `np.asarray`
yields a 3-dimensional array), otherwise `none`. -/
def dim3 (m : List (List (List ℤ))) : Option (Nat × Nat) :=
  match m with
  | [] => none
  | v :: vs =>
    match ncols v with
    | none => none
    | some p =>
      if vs.all (fun w => w.length == v.length && w.all (fun call => call.length == p))
      then some (v.length, p) else none

/-- `_check_genotype_array(g)`: convert to an array; 2 dimensions mean
haploid; 3 dimensions carry ploidy `g.shape[2]`, and a ploidy-1 array is
collapsed to 2-D (`g[:, :, 0]`); anything else raises `ArgumentError`. -/
def _check_genotype_array : GT → Except AllelError GTNorm
  | .g2 m =>
    match ncols m with
    | none => .error (.argumentError "expected 2 or 3 dimensions")
    | some _ => .ok (.hap m)
  | .g3 m =>
    match dim3 m with
    | none => .error (.argumentError "expected 2 or 3 dimensions")
    | some (_, p) =>
      if p = 1 then .ok (.hap (m.map (fun v => v.map (fun call => call.getD 0 0))))
      else .ok (.poly p m)

/-- `is_called(g)`: haploid case `g >= 0`; diploid special case
`(allele1 >= 0) & (allele2 >= 0)`; general ploidy
`np.all(g >= 0, axis=DIM_PLOIDY)`. -/
def is_called (g : GT) : Except AllelError (List (List Bool)) := do
  let gn ← _check_genotype_array g
  match gn with
  | .hap m => return m.map (fun row => row.map (fun x => decide (0 ≤ x)))
  | .poly p m =>
    if p = 2 then
      return m.map (fun v => v.map (fun call =>
        decide (0 ≤ call.getD 0 0) && decide (0 ≤ call.getD 1 0)))
    else
      return m.map (fun v => v.map (fun call => call.all (fun x => decide (0 ≤ x))))

/-- `is_missing(g)`: haploid case `g < 0`; diploid special case
`(allele1 < 0) | (allele2 < 0)`; general ploidy
`np.any(g < 0, axis=DIM_PLOIDY)`. -/
def is_missing (g : GT) : Except AllelError (List (List Bool)) := do
  let gn ← _check_genotype_array g
  match gn with
  | .hap m => return m.map (fun row => row.map (fun x => decide (x < 0)))
  | .poly p m =>
    if p = 2 then
      return m.map (fun v => v.map (fun call =>
        decide (call.getD 0 0 < 0) || decide (call.getD 1 0 < 0)))
    else
      return m.map (fun v => v.map (fun call => call.any (fun x => decide (x < 0))))

/-- Concrete allele-count arrays used by the witnesses (4 aligned biallelic
variants per population). -/
def acaW : Arr := [[1, 1], [2, 1], [1, 2], [3, 1]]

/-- Concrete allele-count array used by the witnesses. -/
def acbW : Arr := [[1, 1], [1, 1], [1, 1], [1, 1]]

/-- Concrete allele-count array used by the witnesses. -/
def accW : Arr := [[2, 2], [2, 2], [2, 2], [2, 2]]

/-- Concrete allele-count array used by the witnesses. -/
def acdW : Arr := [[1, 3], [1, 3], [1, 3], [1, 3]]

/-! Helper lemmas about the `Except` monad and validation. -/

lemma except_bind_ok (x : α) (f : α → Except ε β) : (Except.ok x : Except ε α) >>= f = f x := rfl

lemma except_bind_err (e : ε) (f : α → Except ε β) :
    (Except.error e : Except ε α) >>= f = .error e := rfl

lemma except_map_ok (g : α → β) (x : α) :
    g <$> (Except.ok x : Except ε α) = .ok (g x) := rfl

lemma except_map_err (g : α → β) (e : ε) :
    g <$> (Except.error e : Except ε α) = .error e := rfl

lemma except_pure (x : α) : (pure x : Except ε α) = .ok x := rfl

lemma ncols_mem {ac : Arr} {c : Nat} (h : ncols ac = some c) : ∀ row ∈ ac, row.length = c := by
  match ac with
  | [] => simp [ncols] at h
  | r :: rs =>
    simp only [ncols] at h
    by_cases hall : rs.all (fun row => row.length == r.length)
    · rw [if_pos hall] at h
      have hc : r.length = c := Option.some.inj h
      intro row hrow
      rcases List.mem_cons.mp hrow with h1 | h2
      · rw [h1]; exact hc
      · have := List.all_eq_true.mp hall row h2
        simp only [beq_iff_eq] at this
        rw [this]; exact hc
    · rw [if_neg hall] at h; exact absurd h (by simp)

lemma asarray_ndim2_ok {a : Arr} {c : Nat} (h : ncols a = some c) : asarray_ndim2 a = .ok a := by
  simp [asarray_ndim2, h]

lemma alleleCountsArray_ok {a : Arr} {c : Nat} (h : ncols a = some c) :
    alleleCountsArray a = .ok a := by
  simp [alleleCountsArray, h]

lemma assertBiallelic_ok {a : Arr} (h : ncols a = some 2) : assertBiallelic a = .ok () := by
  simp [assertBiallelic, h]

lemma assertBiallelic_fail {a : Arr} {c : Nat} (h : ncols a = some c) (hne : c ≠ 2) :
    assertBiallelic a = .error (.assertionError "only biallelic variants supported") := by
  simp only [assertBiallelic, h]
  rw [if_neg]
  simp [hne]

lemma h_hat_row_eq {row : List ℤ} (h : row.length = 2) :
    h_hat_row row = fdiv (some ((row.getD 0 0 * row.getD 1 0 : ℤ) : ℚ))
      (some (((row.getD 0 0 + row.getD 1 0) * (row.getD 0 0 + row.getD 1 0 - 1) : ℤ) : ℚ)) := by
  match row, h with
  | [x, y], _ => simp [h_hat_row, alleleNumber]

/-- C3: for every allele-count array with exactly two columns, `h_hat`
returns one value per row equal to `(ref * alt) / (an * (an - 1))` where
`an = ref + alt` is the allele number of the row; in particular the row
`(ref, alt) = (3, 1)` yields `0.25`. -/
theorem claim_C3 (ac : Arr) (h : ncols ac = some 2) :
    h_hat ac = .ok (ac.map (fun row =>
      fdiv (some ((row.getD 0 0 * row.getD 1 0 : ℤ) : ℚ))
           (some (((row.getD 0 0 + row.getD 1 0) * (row.getD 0 0 + row.getD 1 0 - 1) : ℤ) : ℚ))))
    ∧ h_hat [[3, 1]] = .ok [some (1/4 : ℚ)] := by
  constructor
  · have hmap : ac.map h_hat_row = ac.map (fun row =>
        fdiv (some ((row.getD 0 0 * row.getD 1 0 : ℤ) : ℚ))
             (some (((row.getD 0 0 + row.getD 1 0) * (row.getD 0 0 + row.getD 1 0 - 1) : ℤ) : ℚ))) :=
      List.map_congr_left (fun row hr => h_hat_row_eq (ncols_mem h row hr))
    simp only [h_hat, asarray_ndim2_ok h, assertBiallelic_ok h, except_bind_ok, except_pure,
      except_map_ok, hmap]
  · norm_num [h_hat, h_hat_row, asarray_ndim2, assertBiallelic, ncols, alleleNumber, fdiv,
      Bind.bind, Except.bind]
    rfl

/-- Witness for C3 at the concrete input `[[3, 1]]`. -/
theorem claim_C3_witness : h_hat [[3, 1]] = .ok [some (1/4 : ℚ)] :=
  (claim_C3 [[3, 1]] (by rfl)).2

/-- Counterexample to C7 as stated: at the concrete three-column input
`[[1, 1, 1]]`, `h_hat` raises the `AssertionError` of the in-source
`assert ac.shape[1] == 2` statement, which is not an `ArgumentError`. -/
theorem claim_C7_counterexample :
    h_hat [[1, 1, 1]] = .error (.assertionError "only biallelic variants supported")
    ∧ AllelError.isArgumentError (.assertionError "only biallelic variants supported") = false := by
  exact ⟨by rfl, by rfl⟩

/-- C7 as amended: for every 2-D input whose column count is not 2, each of
`h_hat`, `patterson_f2`, `patterson_f3` and `patterson_d` fails by raising
the `AssertionError` of the in-source `assert` (message
`only biallelic variants supported`) and returns no result.  (The source
raises the Python built-in `AssertionError`, not `allel.errors.ArgumentError`.) -/
theorem claim_C7 (ac acb : Arr) (c : Nat) (hc : ncols ac = some c) (hne : c ≠ 2) :
    h_hat ac = .error (.assertionError "only biallelic variants supported")
    ∧ patterson_f2 ac acb = .error (.assertionError "only biallelic variants supported")
    ∧ patterson_f3 acb ac acb = .error (.assertionError "only biallelic variants supported")
    ∧ patterson_d ac acb acb acb = .error (.assertionError "only biallelic variants supported") := by
  have hfail := assertBiallelic_fail hc hne
  refine ⟨?_, ?_, ?_, ?_⟩
  · simp [h_hat, asarray_ndim2_ok hc, hfail, except_bind_ok, except_bind_err]
  · simp [patterson_f2, alleleCountsArray_ok hc, hfail, except_bind_ok, except_bind_err]
  · simp [patterson_f3, alleleCountsArray_ok hc, hfail, except_bind_ok, except_bind_err]
  · simp [patterson_d, alleleCountsArray_ok hc, hfail, except_bind_ok, except_bind_err]

/-- Witness for the amended C7 at the concrete input `[[1, 1, 1]]`. -/
theorem claim_C7_witness :
    h_hat [[1, 1, 1]] = .error (.assertionError "only biallelic variants supported")
    ∧ patterson_f2 [[1, 1, 1]] [[1, 1]] = .error (.assertionError "only biallelic variants supported")
    ∧ patterson_f3 [[1, 1]] [[1, 1, 1]] [[1, 1]] = .error (.assertionError "only biallelic variants supported")
    ∧ patterson_d [[1, 1, 1]] [[1, 1]] [[1, 1]] [[1, 1]] = .error (.assertionError "only biallelic variants supported") :=
  claim_C7 [[1, 1, 1]] [[1, 1]] 3 (by rfl) (by decide)

lemma check_dim0_aligned_ok {l : List Arr} (h : ∀ a ∈ l, a.length = (l.headD []).length) :
    check_dim0_aligned l = .ok () := by
  simp only [check_dim0_aligned]
  rw [if_pos]
  exact List.all_eq_true.mpr (fun a ha => beq_iff_eq.mpr (h a ha))

lemma patterson_f2_ok {aca acb : Arr} (ha : ncols aca = some 2) (hb : ncols acb = some 2)
    (hlb : acb.length = aca.length) :
    patterson_f2 aca acb = .ok (List.zipWith f2_row aca acb) := by
  have hal : check_dim0_aligned [aca, acb] = .ok () := by
    refine check_dim0_aligned_ok (fun a hma => ?_)
    rcases List.mem_cons.mp hma with h1 | h2
    · rw [h1]; rfl
    · rcases List.mem_singleton.mp (by simpa using h2) with rfl
      exact hlb
  simp only [patterson_f2, alleleCountsArray_ok ha, assertBiallelic_ok ha,
    alleleCountsArray_ok hb, assertBiallelic_ok hb, hal, except_bind_ok, except_map_ok,
    except_pure]

lemma patterson_f3_ok {acc aca acb : Arr} (hc : ncols acc = some 2) (ha : ncols aca = some 2)
    (hb : ncols acb = some 2) (hlb : acb.length = aca.length) (hlc : acc.length = aca.length) :
    patterson_f3 acc aca acb = .ok (zipWith3L f3_rowT acc aca acb, acc.map f3_rowB) := by
  have hal : check_dim0_aligned [aca, acb, acc] = .ok () := by
    refine check_dim0_aligned_ok (fun a hma => ?_)
    simp only [List.mem_cons, List.not_mem_nil, or_false] at hma
    rcases hma with rfl | rfl | rfl
    · rfl
    · exact hlb
    · exact hlc
  simp only [patterson_f3, alleleCountsArray_ok ha, assertBiallelic_ok ha,
    alleleCountsArray_ok hb, assertBiallelic_ok hb, alleleCountsArray_ok hc,
    assertBiallelic_ok hc, hal, except_bind_ok, except_map_ok, except_pure]

lemma patterson_d_ok {aca acb acc acd : Arr} (ha : ncols aca = some 2)
    (hb : ncols acb = some 2) (hc : ncols acc = some 2) (hd : ncols acd = some 2)
    (hlb : acb.length = aca.length) (hlc : acc.length = aca.length)
    (hld : acd.length = aca.length) :
    patterson_d aca acb acc acd =
      .ok (zipWith4L d_num_row aca acb acc acd, zipWith4L d_den_row aca acb acc acd) := by
  have hal : check_dim0_aligned [aca, acb, acc, acd] = .ok () := by
    refine check_dim0_aligned_ok (fun a hma => ?_)
    simp only [List.mem_cons, List.not_mem_nil, or_false] at hma
    rcases hma with rfl | rfl | rfl | rfl
    · rfl
    · exact hlb
    · exact hlc
    · exact hld
  simp only [patterson_d, alleleCountsArray_ok ha, assertBiallelic_ok ha,
    alleleCountsArray_ok hb, assertBiallelic_ok hb, alleleCountsArray_ok hc,
    assertBiallelic_ok hc, alleleCountsArray_ok hd, assertBiallelic_ok hd, hal,
    except_bind_ok, except_map_ok, except_pure]

lemma f2_row_self (r : List ℤ) :
    f2_row r r = fsub (fsub (some 0) (fdiv (h_hat_row r) (some ((alleleNumber r : ℤ) : ℚ))))
      (fdiv (h_hat_row r) (some ((alleleNumber r : ℤ) : ℚ))) := by
  simp only [f2_row]
  cases hfa : freqAlt r with
  | none =>
    have han : ((alleleNumber r : ℤ) : ℚ) = 0 := by
      by_contra hne
      simp [freqAlt, fdiv, hne] at hfa
    have hh : h_hat_row r = none := by
      simp only [h_hat_row, fdiv]
      rw [if_pos]
      push_cast
      push_cast at han
      rw [han]; ring
    simp [hh, fsub, fmul, fdiv]
  | some x =>
    simp [fsub, fmul]

lemma fmul_fsub_swap (a b c d : F) :
    fmul (fsub b a) (fsub c d) = fneg (fmul (fsub a b) (fsub c d)) := by
  cases a <;> cases b <;> cases c <;> cases d <;> simp [fsub, fmul, fneg] <;> ring

lemma fden_fadd_swap (a b c d : F) :
    fmul (fsub (fadd b a) (fmul (some 2) (fmul b a))) (fsub (fadd c d) (fmul (some 2) (fmul c d)))
      = fmul (fsub (fadd a b) (fmul (some 2) (fmul a b)))
             (fsub (fadd c d) (fmul (some 2) (fmul c d))) := by
  cases a <;> cases b <;> cases c <;> cases d <;>
    simp only [fsub, fadd, fmul, Option.some.injEq] <;> ring

lemma d_num_row_swap (ra rb rc rd : List ℤ) :
    d_num_row rb ra rc rd = fneg (d_num_row ra rb rc rd) := by
  simp only [d_num_row]
  exact fmul_fsub_swap _ _ _ _

lemma d_den_row_swap (ra rb rc rd : List ℤ) :
    d_den_row rb ra rc rd = d_den_row ra rb rc rd := by
  simp only [d_den_row]
  exact fden_fadd_swap _ _ _ _

lemma zipWith4L_num_swap (as : Arr) : ∀ (bs cs ds : Arr),
    zipWith4L d_num_row bs as cs ds = (zipWith4L d_num_row as bs cs ds).map fneg := by
  induction as with
  | nil => intro bs cs ds; cases bs <;> rfl
  | cons a as ih =>
    intro bs cs ds
    cases bs with
    | nil => rfl
    | cons b bs =>
      cases cs with
      | nil => rfl
      | cons c cs =>
        cases ds with
        | nil => rfl
        | cons d ds =>
          show d_num_row b a c d :: zipWith4L d_num_row bs as cs ds =
            List.map fneg (d_num_row a b c d :: zipWith4L d_num_row as bs cs ds)
          rw [List.map_cons, ih, d_num_row_swap]

lemma zipWith4L_den_swap (as : Arr) : ∀ (bs cs ds : Arr),
    zipWith4L d_den_row bs as cs ds = zipWith4L d_den_row as bs cs ds := by
  induction as with
  | nil => intro bs cs ds; cases bs <;> rfl
  | cons a as ih =>
    intro bs cs ds
    cases bs with
    | nil => rfl
    | cons b bs =>
      cases cs with
      | nil => rfl
      | cons c cs =>
        cases ds with
        | nil => rfl
        | cons d ds =>
          show d_den_row b a c d :: zipWith4L d_den_row bs as cs ds =
            d_den_row a b c d :: zipWith4L d_den_row as bs cs ds
          rw [ih, d_den_row_swap]

/-- C4: for every pair of row-aligned biallelic allele-count arrays,
`patterson_f2` returns per row `(freqA - freqB) ** 2 - hA / sA - hB / sB`;
consequently `patterson_f2(A, A)` has per-row value
`0 - hA / sA - hB / sB` (the squared frequency difference vanishes), which
is not zero: at the row `(1, 1)` it is `-1/2`. -/
theorem claim_C4 (aca acb : Arr) (ha : ncols aca = some 2) (hb : ncols acb = some 2)
    (hlb : acb.length = aca.length) :
    patterson_f2 aca acb = .ok (List.zipWith (fun ra rb =>
      fsub (fsub (fmul (fsub (freqAlt ra) (freqAlt rb)) (fsub (freqAlt ra) (freqAlt rb)))
                 (fdiv (h_hat_row ra) (some ((alleleNumber ra : ℤ) : ℚ))))
           (fdiv (h_hat_row rb) (some ((alleleNumber rb : ℤ) : ℚ)))) aca acb)
    ∧ patterson_f2 aca aca = .ok (aca.map (fun r =>
        fsub (fsub (some 0) (fdiv (h_hat_row r) (some ((alleleNumber r : ℤ) : ℚ))))
             (fdiv (h_hat_row r) (some ((alleleNumber r : ℤ) : ℚ)))))
    ∧ patterson_f2 [[1, 1]] [[1, 1]] = .ok [some (-(1/2) : ℚ)] := by
  refine ⟨?_, ?_, ?_⟩
  · exact patterson_f2_ok ha hb hlb
  · rw [patterson_f2_ok ha ha rfl]
    rw [List.zipWith_same]
    rw [Except.ok.injEq]
    exact List.map_congr_left (fun r _ => f2_row_self r)
  · rw [@patterson_f2_ok [[1, 1]] [[1, 1]] (by rfl) (by rfl) (by rfl)]
    norm_num [List.zipWith, f2_row, freqAlt, h_hat_row, alleleNumber, fdiv, fsub, fmul]

/-- Witness for C4 at the concrete input `[[1, 1]]` for both populations. -/
theorem claim_C4_witness :
    patterson_f2 [[1, 1]] [[1, 1]] = .ok [some (-(1/2) : ℚ)] :=
  (claim_C4 [[1, 1]] [[1, 1]] (by rfl) (by rfl) (by rfl)).2.2

/-- C5: for every triplet of row-aligned biallelic allele-count arrays
`(C; A, B)`, `patterson_f3` returns the two per-variant arrays
`T = (c - a) * (c - b) - hC / sC` and `B = 2 * hC`. -/
theorem claim_C5 (acc aca acb : Arr) (hc : ncols acc = some 2) (ha : ncols aca = some 2)
    (hb : ncols acb = some 2) (hlb : acb.length = aca.length) (hlc : acc.length = aca.length) :
    patterson_f3 acc aca acb = .ok (zipWith3L (fun rc ra rb =>
      fsub (fmul (fsub (freqAlt rc) (freqAlt ra)) (fsub (freqAlt rc) (freqAlt rb)))
           (fdiv (h_hat_row rc) (some ((alleleNumber rc : ℤ) : ℚ)))) acc aca acb,
      acc.map (fun rc => fmul (some 2) (h_hat_row rc))) :=
  patterson_f3_ok hc ha hb hlb hlc

/-- Witness for C5 at a concrete aligned biallelic triplet. -/
theorem claim_C5_witness :
    patterson_f3 [[1, 3]] [[2, 2]] [[3, 1]] = .ok (zipWith3L (fun rc ra rb =>
      fsub (fmul (fsub (freqAlt rc) (freqAlt ra)) (fsub (freqAlt rc) (freqAlt rb)))
           (fdiv (h_hat_row rc) (some ((alleleNumber rc : ℤ) : ℚ)))) [[1, 3]] [[2, 2]] [[3, 1]],
      [[1, 3]].map (fun rc => fmul (some 2) (h_hat_row rc))) :=
  claim_C5 [[1, 3]] [[2, 2]] [[3, 1]] (by rfl) (by rfl) (by rfl) (by rfl) (by rfl)

/-- C6: for every four row-aligned biallelic allele-count arrays, swapping
the first two arguments of `patterson_d` negates the per-variant numerator
and leaves the per-variant denominator unchanged. -/
theorem claim_C6 (aca acb acc acd : Arr) (ha : ncols aca = some 2) (hb : ncols acb = some 2)
    (hc : ncols acc = some 2) (hd : ncols acd = some 2) (hlb : acb.length = aca.length)
    (hlc : acc.length = aca.length) (hld : acd.length = aca.length) :
    patterson_d aca acb acc acd =
      .ok (zipWith4L d_num_row aca acb acc acd, zipWith4L d_den_row aca acb acc acd)
    ∧ patterson_d acb aca acc acd =
      .ok ((zipWith4L d_num_row aca acb acc acd).map fneg,
           zipWith4L d_den_row aca acb acc acd) := by
  constructor
  · exact patterson_d_ok ha hb hc hd hlb hlc hld
  · rw [patterson_d_ok hb ha hc hd hlb.symm (hlb ▸ hlc) (hlb ▸ hld)]
    rw [zipWith4L_num_swap, zipWith4L_den_swap]

/-- Witness for C6 at a concrete aligned biallelic quadruple. -/
theorem claim_C6_witness :
    patterson_d [[1, 1]] [[2, 1]] [[1, 3]] [[3, 1]] =
      .ok (zipWith4L d_num_row [[1, 1]] [[2, 1]] [[1, 3]] [[3, 1]],
           zipWith4L d_den_row [[1, 1]] [[2, 1]] [[1, 3]] [[3, 1]])
    ∧ patterson_d [[2, 1]] [[1, 1]] [[1, 3]] [[3, 1]] =
      .ok ((zipWith4L d_num_row [[1, 1]] [[2, 1]] [[1, 3]] [[3, 1]]).map fneg,
           zipWith4L d_den_row [[1, 1]] [[2, 1]] [[1, 3]] [[3, 1]]) :=
  claim_C6 [[1, 1]] [[2, 1]] [[1, 3]] [[3, 1]] (by rfl) (by rfl) (by rfl) (by rfl)
    (by rfl) (by rfl) (by rfl)

lemma not_decide_nonneg (x : ℤ) : (!decide (0 ≤ x)) = decide (x < 0) := by
  rw [← decide_not]
  simp [not_le]

lemma any_neg_eq_not_all (call : List ℤ) :
    call.any (fun x => decide (x < 0)) = !(call.all (fun x => decide (0 ≤ x))) := by
  induction call with
  | nil => rfl
  | cons x xs ih => simp only [List.any_cons, List.all_cons, Bool.not_and, ih, not_decide_nonneg]

/-- C10: for every valid genotype array (2-D haploid, or 3-D of any ploidy),
`is_missing` returns exactly the elementwise logical negation of
`is_called`: every call is classified as either called or missing, never
both and never neither. -/
theorem claim_C10 (g : GT) (called : List (List Bool)) (h : is_called g = .ok called) :
    is_missing g = .ok (called.map (fun row => row.map (fun b => !b))) := by
  cases g with
  | g2 m =>
    cases hnc : ncols m with
    | none =>
      simp only [is_called, _check_genotype_array, hnc, except_bind_err] at h
      exact absurd h (by simp)
    | some c =>
      simp only [is_called, _check_genotype_array, hnc, except_bind_ok, except_pure,
        Except.ok.injEq] at h
      simp only [is_missing, _check_genotype_array, hnc, except_bind_ok, except_pure,
        Except.ok.injEq]
      rw [← h]
      simp only [List.map_map]
      refine List.map_congr_left (fun row _ => ?_)
      simp only [Function.comp, List.map_map]
      exact List.map_congr_left (fun x _ => (not_decide_nonneg x).symm)
  | g3 m =>
    cases hd : dim3 m with
    | none =>
      simp only [is_called, _check_genotype_array, hd, except_bind_err] at h
      exact absurd h (by simp)
    | some sp =>
      obtain ⟨ns, p⟩ := sp
      by_cases hp1 : p = 1
      · simp only [is_called, _check_genotype_array, hd, if_pos hp1, except_bind_ok,
          except_pure, Except.ok.injEq] at h
        simp only [is_missing, _check_genotype_array, hd, if_pos hp1, except_bind_ok,
          except_pure, Except.ok.injEq]
        rw [← h]
        simp only [List.map_map]
        refine List.map_congr_left (fun row _ => ?_)
        simp only [Function.comp, List.map_map]
        exact List.map_congr_left (fun x _ => (not_decide_nonneg _).symm)
      · by_cases hp2 : p = 2
        · simp only [is_called, _check_genotype_array, hd, if_neg hp1, except_bind_ok,
            if_pos hp2, except_pure, Except.ok.injEq] at h
          simp only [is_missing, _check_genotype_array, hd, if_neg hp1, except_bind_ok,
            if_pos hp2, except_pure, Except.ok.injEq]
          rw [← h]
          simp only [List.map_map]
          refine List.map_congr_left (fun v _ => ?_)
          simp only [Function.comp, List.map_map]
          refine List.map_congr_left (fun call _ => ?_)
          simp only [Function.comp_apply]
          rw [Bool.not_and, not_decide_nonneg, not_decide_nonneg]
        · simp only [is_called, _check_genotype_array, hd, if_neg hp1, except_bind_ok,
            if_neg hp2, except_pure, Except.ok.injEq] at h
          simp only [is_missing, _check_genotype_array, hd, if_neg hp1, except_bind_ok,
            if_neg hp2, except_pure, Except.ok.injEq]
          rw [← h]
          simp only [List.map_map]
          refine List.map_congr_left (fun v _ => ?_)
          simp only [Function.comp, List.map_map]
          refine List.map_congr_left (fun call _ => ?_)
          simp only [Function.comp_apply]
          exact any_neg_eq_not_all call

/-- Witness for C10 at the diploid example of the `gt.py` docstrings. -/
theorem claim_C10_witness :
    is_missing (.g3 [[[0, 0], [0, 1]], [[0, 1], [1, 1]], [[0, 2], [-1, -1]]]) =
      .ok ([[true, true], [true, true], [true, false]].map (fun row => row.map (fun b => !b))) :=
  claim_C10 (.g3 [[[0, 0], [0, 1]], [[0, 1], [1, 1]], [[0, 2], [-1, -1]]])
    [[true, true], [true, true], [true, false]] (by rfl)

/-! Helper lemmas for the jackknife loop. -/

lemma set_replicate_false (n i : Nat) :
    (List.replicate n false).set i false = List.replicate n false := by
  induction n generalizing i with
  | zero => rfl
  | succ n ih =>
    cases i with
    | zero => simp [List.replicate_succ]
    | succ i => simp [List.replicate_succ, ih]

lemma jackknifeLoop_succ (stat : MaskedArr → F) (values : List ℚ) (k : Nat) :
    jackknifeLoop stat values (k + 1) =
      jackknifeStep stat (jackknifeLoop stat values k) k := by
  simp [jackknifeLoop, List.range_succ]

lemma jackknifeLoop_eq (stat : MaskedArr → F) (values : List ℚ) (k : Nat) :
    jackknifeLoop stat values k =
      (⟨values, List.replicate values.length false⟩,
       (List.range k).map (fun i =>
         stat ⟨values, (List.replicate values.length false).set i true⟩)) := by
  induction k with
  | zero => rfl
  | succ k ih =>
    rw [jackknifeLoop_succ, ih]
    simp only [jackknifeStep, List.set_set, set_replicate_false]
    rw [List.range_succ, List.map_append]
    rfl

lemma jackknife2Loop_succ (stat : MaskedArr2 → F) (v1 v2 : List ℚ) (k : Nat) :
    jackknife2Loop stat v1 v2 (k + 1) =
      jackknife2Step stat (jackknife2Loop stat v1 v2 k) k := by
  simp [jackknife2Loop, List.range_succ]

lemma jackknife2Loop_eq (stat : MaskedArr2 → F) (v1 v2 : List ℚ) (k : Nat) :
    jackknife2Loop stat v1 v2 k =
      (⟨v1, List.replicate v1.length false, v2, List.replicate v2.length false⟩,
       (List.range k).map (fun i =>
         stat ⟨v1, (List.replicate v1.length false).set i true,
               v2, (List.replicate v2.length false).set i true⟩)) := by
  induction k with
  | zero => rfl
  | succ k ih =>
    rw [jackknife2Loop_succ, ih]
    simp only [jackknife2Step, List.set_set, set_replicate_false]
    rw [List.range_succ, List.map_append]
    rfl

lemma unmasked_replicate (l : List ℚ) : unmasked l (List.replicate l.length false) = l := by
  induction l with
  | nil => rfl
  | cons x xs ih => simp [unmasked, List.replicate_succ, ih]

lemma unmasked_set_true (l : List ℚ) : ∀ i, i < l.length →
    unmasked l ((List.replicate l.length false).set i true) = l.eraseIdx i := by
  induction l with
  | nil => intro i hi; simp at hi
  | cons x xs ih =>
    intro i hi
    cases i with
    | zero =>
      show unmasked (x :: xs) (true :: List.replicate xs.length false) = xs
      simp [unmasked, unmasked_replicate]
    | succ i =>
      show unmasked (x :: xs) (false :: (List.replicate xs.length false).set i true)
        = x :: xs.eraseIdx i
      simp only [unmasked, if_neg Bool.false_ne_true]
      rw [ih i (by simpa using hi)]

lemma eraseIdx_sum (l : List ℚ) : ∀ i, i < l.length →
    (l.eraseIdx i).sum = l.sum - l.getD i 0 := by
  induction l with
  | nil => intro i hi; simp at hi
  | cons x xs ih =>
    intro i hi
    cases i with
    | zero => simp
    | succ i =>
      show (x :: xs.eraseIdx i).sum = (x :: xs).sum - xs.getD i 0
      rw [List.sum_cons, List.sum_cons, ih i (by simpa using hi)]
      ring

lemma eraseIdx_len (l : List ℚ) (i : Nat) (hi : i < l.length) :
    (l.eraseIdx i).length = l.length - 1 := by
  simp [List.length_eraseIdx, hi]

lemma fsum_map_some (l : List Nat) (f : Nat → ℚ) :
    fsum (l.map (fun x => some (f x))) = some ((l.map f).sum) := by
  induction l with
  | nil => rfl
  | cons x xs ih =>
    have hx : fsum ((x :: xs).map (fun x => some (f x)))
        = fadd (some (f x)) (fsum (xs.map (fun x => some (f x)))) := rfl
    rw [hx, ih]
    simp [fadd]

lemma list_sum_map_div (l : List Nat) (f : Nat → ℚ) (c : ℚ) :
    (l.map (fun x => f x / c)).sum = (l.map f).sum / c := by
  induction l with
  | nil => simp
  | cons x xs ih => simp [ih, add_div]

lemma sum_range_const_sub (n : Nat) (S : ℚ) (d : Nat → ℚ) :
    ((List.range n).map (fun i => S - d i)).sum = n * S - ((List.range n).map d).sum := by
  induction n with
  | zero => simp
  | succ n ih =>
    rw [List.range_succ]
    simp only [List.map_append, List.sum_append, ih, List.map_cons, List.map_nil,
      List.sum_cons, List.sum_nil]
    push_cast
    ring

lemma sum_getD_range (l : List ℚ) :
    ((List.range l.length).map (fun i => l.getD i 0)).sum = l.sum := by
  induction l with
  | nil => simp
  | cons x xs ih =>
    rw [List.length_cons, List.range_succ_eq_map]
    simp only [List.map_cons, List.getD_cons_zero, List.map_map, List.sum_cons]
    have hcomp : ((fun i => (x :: xs).getD i 0) ∘ Nat.succ) = fun i => xs.getD i 0 := by
      funext i
      simp [Function.comp]
    rw [hcomp, ih]

lemma maskedMean_erase (values : List ℚ) (i : Nat) (hi : i < values.length)
    (h2 : 2 ≤ values.length) :
    maskedMean ⟨values, (List.replicate values.length false).set i true⟩ =
      some ((values.sum - values.getD i 0) / ((values.length : ℚ) - 1)) := by
  simp only [maskedMean, unmasked_set_true values i hi]
  rw [eraseIdx_sum values i hi, eraseIdx_len values i hi]
  have hne : ((values.length - 1 : ℕ) : ℚ) ≠ 0 := by
    rw [Nat.cast_ne_zero]
    omega
  simp only [fdiv, if_neg hne]
  rw [Nat.cast_sub (by omega)]
  norm_num

lemma jackknife_mean (values : List ℚ) (h2 : 2 ≤ values.length) :
    (jackknife maskedMean values).1 = some (values.sum / (values.length : ℚ)) := by
  have hvj : (jackknifeLoop maskedMean values values.length).2 =
      (List.range values.length).map (fun i =>
        some ((values.sum - values.getD i 0) / ((values.length : ℚ) - 1))) := by
    rw [jackknifeLoop_eq]
    exact List.map_congr_left (fun i hi =>
      maskedMean_erase values i (List.mem_range.mp hi) h2)
  have hc : ((values.length : ℚ) - 1) ≠ 0 := by
    have : (2 : ℚ) ≤ (values.length : ℚ) := by exact_mod_cast h2
    intro hzero
    nlinarith
  have hn : (values.length : ℚ) ≠ 0 := by
    have : (2 : ℚ) ≤ (values.length : ℚ) := by exact_mod_cast h2
    intro hzero
    nlinarith
  simp only [jackknife]
  rw [hvj, fmean, fsum_map_some, list_sum_map_div, sum_range_const_sub, sum_getD_range]
  have hS : ((values.length : ℚ) * values.sum - values.sum) / ((values.length : ℚ) - 1)
      = values.sum := by
    rw [div_eq_iff hc]
    ring
  rw [hS]
  simp only [fdiv, List.length_map, List.length_range, if_neg hn]

/-- C2: after any prefix of the jackknife loop (in particular after the full
run), the input series is unchanged and the mask is back to all-`False` (no
element remains excluded), in both the single-series and the tuple branch;
and iteration `i` applies the statistic to the mask with exactly element `i`
set, so each replicate is computed with only element `i` excluded. -/
theorem claim_C2 (stat : MaskedArr → F) (stat2 : MaskedArr2 → F)
    (values v1 v2 : List ℚ) (k k2 : Nat) (hk : k ≤ values.length) (hk2 : k2 ≤ v1.length) :
    (jackknifeLoop stat values k).1.data = values
    ∧ (jackknifeLoop stat values k).1.mask = List.replicate values.length false
    ∧ (jackknifeLoop stat values values.length).2 =
        (List.range values.length).map (fun i =>
          stat ⟨values, (List.replicate values.length false).set i true⟩)
    ∧ (jackknife2Loop stat2 v1 v2 k2).1.data1 = v1
    ∧ (jackknife2Loop stat2 v1 v2 k2).1.mask1 = List.replicate v1.length false
    ∧ (jackknife2Loop stat2 v1 v2 k2).1.data2 = v2
    ∧ (jackknife2Loop stat2 v1 v2 k2).1.mask2 = List.replicate v2.length false := by
  rw [jackknifeLoop_eq, jackknifeLoop_eq, jackknife2Loop_eq]
  exact ⟨rfl, rfl, rfl, rfl, rfl, rfl, rfl⟩

/-- Witness for C2 at concrete series and statistics, after the full run. -/
theorem claim_C2_witness :
    (jackknifeLoop maskedMean [1, 2, 3] 3).1.data = [1, 2, 3]
    ∧ (jackknifeLoop maskedMean [1, 2, 3] 3).1.mask = List.replicate (List.length [1, 2, 3]) false
    ∧ (jackknifeLoop maskedMean [1, 2, 3] (List.length [1, 2, 3])).2 =
        (List.range (List.length [1, 2, 3])).map (fun i =>
          maskedMean ⟨[1, 2, 3], (List.replicate (List.length [1, 2, 3]) false).set i true⟩)
    ∧ (jackknife2Loop sumRatioStat [1, 2] [3, 4] 2).1.data1 = [1, 2]
    ∧ (jackknife2Loop sumRatioStat [1, 2] [3, 4] 2).1.mask1 = List.replicate (List.length [1, 2]) false
    ∧ (jackknife2Loop sumRatioStat [1, 2] [3, 4] 2).1.data2 = [3, 4]
    ∧ (jackknife2Loop sumRatioStat [1, 2] [3, 4] 2).1.mask2 = List.replicate (List.length [3, 4]) false := by
  have h := claim_C2 maskedMean sumRatioStat [1, 2, 3] [1, 2] [3, 4] 3 2
    (by decide) (by decide)
  exact h

/-- C1: for every input series (and for the tuple branch, every pair of
equal-length series) and every statistic, `jackknife` returns exactly `n`
replicates `vj`, a mean `m` equal to the arithmetic mean of the replicates,
and the bias-corrected variance
`sv = ((n - 1) / n) * sum((vj_i - m) ** 2)` whose square root the source
returns as `se`; and with `statistic = mean`, `m` equals the sample mean of
the input series. -/
theorem claim_C1 (stat : MaskedArr → F) (stat2 : MaskedArr2 → F)
    (values v1 v2 : List ℚ) (h2 : 2 ≤ values.length) (heq : v1.length = v2.length) :
    (jackknife stat values).2.2.length = values.length
    ∧ (jackknife stat values).1 = fmean (jackknife stat values).2.2
    ∧ (jackknife stat values).2.1 =
        fmul (some (((values.length : ℚ) - 1) / (values.length : ℚ)))
          (fsum ((jackknife stat values).2.2.map (fun v =>
            fmul (fsub v (fmean (jackknife stat values).2.2))
                 (fsub v (fmean (jackknife stat values).2.2)))))
    ∧ (jackknife2 stat2 v1 v2).2.2.length = v1.length
    ∧ (jackknife2 stat2 v1 v2).1 = fmean (jackknife2 stat2 v1 v2).2.2
    ∧ (jackknife2 stat2 v1 v2).2.1 =
        fmul (some (((v1.length : ℚ) - 1) / (v1.length : ℚ)))
          (fsum ((jackknife2 stat2 v1 v2).2.2.map (fun v =>
            fmul (fsub v (fmean (jackknife2 stat2 v1 v2).2.2))
                 (fsub v (fmean (jackknife2 stat2 v1 v2).2.2)))))
    ∧ (jackknife maskedMean values).1 = some (values.sum / (values.length : ℚ)) := by
  refine ⟨?_, rfl, rfl, ?_, rfl, rfl, jackknife_mean values h2⟩
  · simp only [jackknife, jackknifeLoop_eq, List.length_map, List.length_range]
  · simp only [jackknife2, jackknife2Loop_eq, List.length_map, List.length_range]

/-- Witness for C1 at the concrete series `[1, 2, 3]` (and `[1, 2]`, `[3, 4]`
for the tuple branch) with the mean statistic. -/
theorem claim_C1_witness :
    (jackknife maskedMean [1, 2, 3]).2.2.length = List.length [1, 2, 3]
    ∧ (jackknife maskedMean [1, 2, 3]).1 = fmean (jackknife maskedMean [1, 2, 3]).2.2
    ∧ (jackknife maskedMean [1, 2, 3]).2.1 =
        fmul (some (((List.length [1, 2, 3] : ℚ) - 1) / (List.length [1, 2, 3] : ℚ)))
          (fsum ((jackknife maskedMean [1, 2, 3]).2.2.map (fun v =>
            fmul (fsub v (fmean (jackknife maskedMean [1, 2, 3]).2.2))
                 (fsub v (fmean (jackknife maskedMean [1, 2, 3]).2.2)))))
    ∧ (jackknife2 sumRatioStat [1, 2] [3, 4]).2.2.length = List.length [1, 2]
    ∧ (jackknife2 sumRatioStat [1, 2] [3, 4]).1 = fmean (jackknife2 sumRatioStat [1, 2] [3, 4]).2.2
    ∧ (jackknife2 sumRatioStat [1, 2] [3, 4]).2.1 =
        fmul (some (((List.length [1, 2] : ℚ) - 1) / (List.length [1, 2] : ℚ)))
          (fsum ((jackknife2 sumRatioStat [1, 2] [3, 4]).2.2.map (fun v =>
            fmul (fsub v (fmean (jackknife2 sumRatioStat [1, 2] [3, 4]).2.2))
                 (fsub v (fmean (jackknife2 sumRatioStat [1, 2] [3, 4]).2.2)))))
    ∧ (jackknife maskedMean [1, 2, 3]).1 = some (List.sum [1, 2, 3] / (List.length [1, 2, 3] : ℚ)) :=
  claim_C1 maskedMean sumRatioStat [1, 2, 3] [1, 2] [3, 4] (by norm_num) (by rfl)

lemma check_dim0_aligned_fail {l : List Arr}
    (h : ¬ (∀ a ∈ l, a.length = (l.headD []).length)) :
    check_dim0_aligned l =
      .error (.dimensionMismatchError "arrays do not have matching length for first dimension") := by
  simp only [check_dim0_aligned]
  rw [if_neg]
  intro hall
  exact h (fun a ha => beq_iff_eq.mp (List.all_eq_true.mp hall a ha))

/-- C8: calling `patterson_d` (and likewise the other multi-population
estimators, under their own alignment conditions) with valid biallelic
inputs whose leading-dimension lengths differ fails synchronously with the
dimension-mismatch error of `check_dim0_aligned` and produces no output
arrays.  The alignment helper itself is not under src and is modelled from
the spec. -/
theorem claim_C8 (aca acb acc acd : Arr) (ha : ncols aca = some 2) (hb : ncols acb = some 2)
    (hc : ncols acc = some 2) (hd : ncols acd = some 2)
    (hmis : ¬ (acb.length = aca.length ∧ acc.length = aca.length ∧ acd.length = aca.length)) :
    patterson_d aca acb acc acd =
      .error (.dimensionMismatchError "arrays do not have matching length for first dimension")
    ∧ (acb.length ≠ aca.length → patterson_f2 aca acb =
        .error (.dimensionMismatchError "arrays do not have matching length for first dimension"))
    ∧ (¬ (acb.length = aca.length ∧ acc.length = aca.length) → patterson_f3 acc aca acb =
        .error (.dimensionMismatchError "arrays do not have matching length for first dimension")) := by
  refine ⟨?_, ?_, ?_⟩
  · have hal : check_dim0_aligned [aca, acb, acc, acd] =
        .error (.dimensionMismatchError "arrays do not have matching length for first dimension") := by
      refine check_dim0_aligned_fail (fun hall => hmis ?_)
      exact ⟨hall acb (by simp), hall acc (by simp), hall acd (by simp)⟩
    simp only [patterson_d, alleleCountsArray_ok ha, assertBiallelic_ok ha,
      alleleCountsArray_ok hb, assertBiallelic_ok hb, alleleCountsArray_ok hc,
      assertBiallelic_ok hc, alleleCountsArray_ok hd, assertBiallelic_ok hd, hal,
      except_bind_ok, except_bind_err, except_map_err]
  · intro hne
    have hal : check_dim0_aligned [aca, acb] =
        .error (.dimensionMismatchError "arrays do not have matching length for first dimension") := by
      refine check_dim0_aligned_fail (fun hall => hne ?_)
      exact hall acb (by simp)
    simp only [patterson_f2, alleleCountsArray_ok ha, assertBiallelic_ok ha,
      alleleCountsArray_ok hb, assertBiallelic_ok hb, hal, except_bind_ok, except_bind_err,
      except_map_err]
  · intro hne
    have hal : check_dim0_aligned [aca, acb, acc] =
        .error (.dimensionMismatchError "arrays do not have matching length for first dimension") := by
      refine check_dim0_aligned_fail (fun hall => hne ?_)
      exact ⟨hall acb (by simp), hall acc (by simp)⟩
    simp only [patterson_f3, alleleCountsArray_ok ha, assertBiallelic_ok ha,
      alleleCountsArray_ok hb, assertBiallelic_ok hb, alleleCountsArray_ok hc,
      assertBiallelic_ok hc, hal, except_bind_ok, except_bind_err, except_map_err]

/-- Witness for C8 at concrete misaligned inputs (lengths 1, 2, 3 and 4). -/
theorem claim_C8_witness :
    patterson_d [[1, 1]] [[1, 1], [1, 1]] [[1, 1], [1, 1], [1, 1]]
        [[1, 1], [1, 1], [1, 1], [1, 1]] =
      .error (.dimensionMismatchError "arrays do not have matching length for first dimension")
    ∧ (List.length [[1, 1], [1, 1]] ≠ List.length ([[1, 1]] : Arr) →
        patterson_f2 [[1, 1]] [[1, 1], [1, 1]] =
        .error (.dimensionMismatchError "arrays do not have matching length for first dimension"))
    ∧ (¬ (List.length [[1, 1], [1, 1]] = List.length ([[1, 1]] : Arr)
          ∧ List.length [[1, 1], [1, 1], [1, 1]] = List.length ([[1, 1]] : Arr)) →
        patterson_f3 [[1, 1], [1, 1], [1, 1]] [[1, 1]] [[1, 1], [1, 1]] =
        .error (.dimensionMismatchError "arrays do not have matching length for first dimension")) :=
  claim_C8 [[1, 1]] [[1, 1], [1, 1]] [[1, 1], [1, 1], [1, 1]]
    [[1, 1], [1, 1], [1, 1], [1, 1]] (by rfl) (by rfl) (by rfl) (by rfl) (by decide)

/-! Helper lemmas for the blockwise wrapper. -/

lemma blocksAux_eq (blen : Nat) : ∀ (k : Nat) (xs : List F),
    blocksAux blen k xs = (List.range k).map (fun j => (xs.drop (j * blen)).take blen) := by
  intro k
  induction k with
  | zero => intro xs; rfl
  | succ k ih =>
    intro xs
    rw [blocksAux, ih (xs.drop blen), List.range_succ_eq_map]
    simp only [List.map_cons, List.map_map]
    congr 1
    · simp
    · refine List.map_congr_left (fun j _ => ?_)
      simp only [Function.comp_apply, List.drop_drop]
      congr 2
      rw [Nat.succ_eq_add_one]
      ring

lemma moving_nansum_eq (xs : List F) (blen : Nat) :
    moving_nansum xs blen = (List.range (xs.length / blen)).map
      (fun j => nansum ((xs.drop (j * blen)).take blen)) := by
  rw [moving_nansum, blocksAux_eq, List.map_map]
  rfl

lemma moving_nansum_len (xs : List F) (blen : Nat) :
    (moving_nansum xs blen).length = xs.length / blen := by
  rw [moving_nansum_eq]
  simp

lemma zipWith4L_len (f : List ℤ → List ℤ → List ℤ → List ℤ → F) :
    ∀ (as bs cs ds : Arr), bs.length = as.length → cs.length = as.length →
      ds.length = as.length → (zipWith4L f as bs cs ds).length = as.length := by
  intro as
  induction as with
  | nil =>
    intro bs cs ds hb _ _
    cases bs <;> simp_all [zipWith4L]
  | cons a as ih =>
    intro bs cs ds hb hc hd
    cases bs with
    | nil => simp at hb
    | cons b bs =>
      cases cs with
      | nil => simp at hc
      | cons c cs =>
        cases ds with
        | nil => simp at hd
        | cons d ds =>
          show (f a b c d :: zipWith4L f as bs cs ds).length = as.length + 1
          rw [List.length_cons, ih bs cs ds (by simpa using hb) (by simpa using hc)
            (by simpa using hd)]

/-- C9: for every valid four-population input with `n` variants and every
block length `blen` that evenly divides `n`, `blockwise_patterson_d`
returns per-block arrays `vb` and `vj` of exactly `n / blen` entries, and
each `vb` entry is the NaN-aware block sum of `num` divided by the NaN-aware
block sum of `den` over one non-overlapping contiguous block of `blen`
variants.  (`moving_statistic` is not under src and is modelled from the
spec as non-overlapping contiguous blocks.) -/
theorem claim_C9 (aca acb acc acd : Arr) (blen : Nat) (ha : ncols aca = some 2)
    (hb : ncols acb = some 2) (hc : ncols acc = some 2) (hd : ncols acd = some 2)
    (hlb : acb.length = aca.length) (hlc : acc.length = aca.length)
    (hld : acd.length = aca.length) (hblen : 0 < blen) (hdvd : blen ∣ aca.length) :
    ∃ m sv vj,
      blockwise_patterson_d aca acb acc acd blen = .ok (m, sv,
        (List.range (aca.length / blen)).map (fun k =>
          fdiv (some (nansum (((zipWith4L d_num_row aca acb acc acd).drop (k * blen)).take blen)))
               (some (nansum (((zipWith4L d_den_row aca acb acc acd).drop (k * blen)).take blen)))),
        vj)
      ∧ ((List.range (aca.length / blen)).map (fun k =>
          fdiv (some (nansum (((zipWith4L d_num_row aca acb acc acd).drop (k * blen)).take blen)))
               (some (nansum (((zipWith4L d_den_row aca acb acc acd).drop (k * blen)).take blen))))).length
          = aca.length / blen
      ∧ vj.length = aca.length / blen := by
  have hnum_len : (zipWith4L d_num_row aca acb acc acd).length = aca.length :=
    zipWith4L_len d_num_row aca acb acc acd hlb hlc hld
  have hden_len : (zipWith4L d_den_row aca acb acc acd).length = aca.length :=
    zipWith4L_len d_den_row aca acb acc acd hlb hlc hld
  have hnb : moving_nansum (zipWith4L d_num_row aca acb acc acd) blen =
      (List.range (aca.length / blen)).map (fun j =>
        nansum (((zipWith4L d_num_row aca acb acc acd).drop (j * blen)).take blen)) := by
    rw [moving_nansum_eq, hnum_len]
  have hdb : moving_nansum (zipWith4L d_den_row aca acb acc acd) blen =
      (List.range (aca.length / blen)).map (fun j =>
        nansum (((zipWith4L d_den_row aca acb acc acd).drop (j * blen)).take blen)) := by
    rw [moving_nansum_eq, hden_len]
  refine ⟨(jackknife2 sumRatioStat
      (moving_nansum (zipWith4L d_num_row aca acb acc acd) blen)
      (moving_nansum (zipWith4L d_den_row aca acb acc acd) blen)).1,
    (jackknife2 sumRatioStat
      (moving_nansum (zipWith4L d_num_row aca acb acc acd) blen)
      (moving_nansum (zipWith4L d_den_row aca acb acc acd) blen)).2.1,
    (jackknife2 sumRatioStat
      (moving_nansum (zipWith4L d_num_row aca acb acc acd) blen)
      (moving_nansum (zipWith4L d_den_row aca acb acc acd) blen)).2.2, ?_, ?_, ?_⟩
  · simp only [blockwise_patterson_d, patterson_d_ok ha hb hc hd hlb hlc hld,
      except_bind_ok, except_pure]
    rw [Except.ok.injEq]
    rw [hnb, hdb]
    simp only [List.zipWith_map, List.zipWith_same]
  · simp
  · simp only [jackknife2, jackknife2Loop_eq, List.length_map, List.length_range]
    rw [moving_nansum_len, hnum_len]

/-- Witness for C9: four aligned biallelic populations with 4 variants and
block length 2 give 2 blocks. -/
theorem claim_C9_witness :
    ∃ m sv vj,
      blockwise_patterson_d acaW acbW accW acdW 2 = .ok (m, sv,
        (List.range (acaW.length / 2)).map (fun k =>
          fdiv (some (nansum (((zipWith4L d_num_row acaW acbW accW acdW).drop (k * 2)).take 2)))
               (some (nansum (((zipWith4L d_den_row acaW acbW accW acdW).drop (k * 2)).take 2)))),
        vj)
      ∧ ((List.range (acaW.length / 2)).map (fun k =>
          fdiv (some (nansum (((zipWith4L d_num_row acaW acbW accW acdW).drop (k * 2)).take 2)))
               (some (nansum (((zipWith4L d_den_row acaW acbW accW acdW).drop (k * 2)).take 2))))).length
          = acaW.length / 2
      ∧ vj.length = acaW.length / 2 :=
  claim_C9 acaW acbW accW acdW 2
    (by rfl) (by rfl) (by rfl) (by rfl) (by rfl) (by rfl) (by rfl) (by decide) (by decide)
